import Mathlib

/-!
Verification of the `queue` package of BenKnigge/colly (src/queue/queue.go).

The development shallowly embeds the package's data model and operations:

* `InMemoryQueueStorage` — the in-memory storage backend (a singly linked
  FIFO chain with `first`/`last` pointers, a `size` counter and a `MaxSize`
  capacity bound).  The linked chain reachable from `first` is embedded as a
  `List`; the code maintains the invariant that, whenever `first` is
  non-nil, `last` points to the final node of that chain, so appending via
  `last.Next` is embedded as appending at the end of the list.  Since `last`
  is only ever read for its nil-ness (the `first == nil` branch of the
  append) and for tail linking, the embedding additionally records only the
  nil-ness of `last` in the boolean field `lastNil`.
* The coordinator `Queue` with its enqueue path (`AddRequest`,
  `storeRequest`), constructor (`New`) and the duplicate-`Run` check.
* A small-step transition system `Step`/`Steps` for the dispatch loop
  (`Queue.loop`), the worker pool (`independentRunner`) and concurrent
  producers, used for the termination and exactly-once properties.

Machine integers (`int` in Go) are embedded as `Int`; none of the modelled
operations can overflow a 64-bit counter in the scenarios the theorems
quantify over, and the Go arithmetic involved (`size++`, `size--`,
`active++`, `active--`) is ordinary signed arithmetic far from the bounds.
Byte slices are embedded as `List Nat`.  Fallible Go calls returning
`(T, error)` are embedded as pairs with an `Option GoErr` component;
runtime panics (nil-pointer dereferences, `panic(...)` calls) are embedded
with `Except GoPanic`.
-/

/-- Errors surfaced through Go `error` values.  `errQueueFull` is
`colly.ErrQueueFull`, the distinguished capacity error returned by the
bounded in-memory store; `other` stands for any further error value an
external collaborator (marshalling, an external storage backend) may
produce. -/
inductive GoErr
  | errQueueFull
  | other (code : Nat)
  deriving DecidableEq

/-- Go runtime panics: a nil-pointer dereference, or an explicit
`panic(msg)` call. -/
inductive GoPanic
  | nilDereference
  | panicCalled (msg : String)
  deriving DecidableEq

/-- The in-memory storage backend (`InMemoryQueueStorage` in queue.go).
`first` holds the payloads of the linked chain of `inMemoryQueueItem`
nodes reachable from the `first` pointer (`first = []` iff the Go `first`
pointer is nil); `lastNil` records whether the `last` pointer is nil.
`α` stands for `*colly.Request`, the opaque work item. -/
structure InMemoryQueueStorage (α : Type) where
  MaxSize : Int
  lockInitialized : Bool
  size : Int
  first : List α
  lastNil : Bool
  deriving DecidableEq

/-- The Go zero value of `InMemoryQueueStorage` with a given `MaxSize`,
as produced by the literal `&InMemoryQueueStorage{MaxSize: ms}`. -/
def newInMemory (α : Type) (ms : Int) : InMemoryQueueStorage α :=
  { MaxSize := ms, lockInitialized := false, size := 0, first := [], lastNil := true }

/-- `Init` (queue.go:229-232): allocates the `RWMutex`; always succeeds. -/
def InMemoryQueueStorage.Init (q : InMemoryQueueStorage α) :
    Option GoErr × InMemoryQueueStorage α :=
  (none, { q with lockInitialized := true })

/-- `AddRequestPointer` (queue.go:266-282): reject with `ErrQueueFull` when
the capacity bound is active and reached; otherwise link a new node at the
tail (`first = i` when `first == nil`, else `last.Next = i`), point `last`
at it and increment `size`. -/
def InMemoryQueueStorage.AddRequestPointer (q : InMemoryQueueStorage α) (r : α) :
    Option GoErr × InMemoryQueueStorage α :=
  if q.MaxSize > 0 ∧ q.size ≥ q.MaxSize then
    (some .errQueueFull, q)
  else
    (none, { q with first := q.first ++ [r], lastNil := false, size := q.size + 1 })

/-- `GetRequestPointer` (queue.go:296-306): on `size == 0` return
`(nil, nil)`; otherwise read `first.Request`, advance `first` to
`first.Next` and decrement `size`.  The `last` pointer is not touched.
Reading `first.Request` when the chain is empty although `size ≠ 0`
(impossible in reachable states) would dereference a nil pointer. -/
def InMemoryQueueStorage.GetRequestPointer (q : InMemoryQueueStorage α) :
    Except GoPanic (Option α × Option GoErr × InMemoryQueueStorage α) :=
  if q.size = 0 then .ok (none, none, q)
  else
    match q.first with
    | [] => .error .nilDereference
    | r :: rest => .ok (some r, none, { q with first := rest, size := q.size - 1 })

/-- `QueueSize` (queue.go:309-313): returns `(size, nil)`. -/
def InMemoryQueueStorage.QueueSize (q : InMemoryQueueStorage α) :
    Int × Option GoErr :=
  (q.size, none)

/-- `GetRequest` (queue.go:286-292): calls `GetRequestPointer`; if that
returned a non-nil error, returns `([]byte{}, nil)`; otherwise returns
`r.Marshal()`.  `m` embeds `(*colly.Request).Marshal`, a method of this
repository's root package (not under src/).  Modelled from the spec:
`Marshal() -> bytes` serializes the work item by reading its fields, so
invoking it on a nil request (`r = none`, as returned by
`GetRequestPointer` on an empty store) dereferences a nil pointer. -/
def InMemoryQueueStorage.GetRequest (m : α → List Nat × Option GoErr)
    (q : InMemoryQueueStorage α) :
    Except GoPanic (List Nat × Option GoErr × InMemoryQueueStorage α) :=
  match q.GetRequestPointer with
  | .error p => .error p
  | .ok (r, err, q2) =>
    if err.isSome then .ok ([], none, q2)
    else
      match r with
      | none => .error .nilDereference
      | some req => .ok ((m req).1, (m req).2, q2)

/-- `GetRequest` with its `err != nil` branch elided: used to state that
this branch is unreachable (`GetRequestPointer` never returns a non-nil
error). -/
def InMemoryQueueStorage.GetRequestElided (m : α → List Nat × Option GoErr)
    (q : InMemoryQueueStorage α) :
    Except GoPanic (List Nat × Option GoErr × InMemoryQueueStorage α) :=
  match q.GetRequestPointer with
  | .error p => .error p
  | .ok (r, _, q2) =>
    match r with
    | none => .error .nilDereference
    | some req => .ok ((m req).1, (m req).2, q2)

/-- `AddRequest` (queue.go:236-263): deserializes the byte payload
(`json.Unmarshal`, `url.Parse`, context rebuild — embedded by the abstract
`ub`), propagating a deserialization error without touching the store,
then delegates to `AddRequestPointer`. -/
def InMemoryQueueStorage.AddRequest (ub : List Nat → Except GoErr α)
    (q : InMemoryQueueStorage α) (b : List Nat) :
    Option GoErr × InMemoryQueueStorage α :=
  match ub b with
  | .error e => (some e, q)
  | .ok r => q.AddRequestPointer r

/-- One invocation of a storage-backend operation, used to run arbitrary
operation sequences against the in-memory store. -/
inductive StoreOp (α : Type)
  | initOp
  | addPtr (r : α)
  | addBytes (b : List Nat)
  | getPtr
  | getBytes
  | sizeQuery

/-- The store state after one operation.  A panic (`Except.error`) aborts
the Go program; the sequence is continued on the unchanged store, which
only makes the stated invariants stronger. -/
def applyStoreOp (m : α → List Nat × Option GoErr) (ub : List Nat → Except GoErr α)
    (q : InMemoryQueueStorage α) : StoreOp α → InMemoryQueueStorage α
  | .initOp => q.Init.2
  | .addPtr r => (q.AddRequestPointer r).2
  | .addBytes b => (q.AddRequest ub b).2
  | .getPtr =>
    match q.GetRequestPointer with
    | .ok (_, _, q2) => q2
    | .error _ => q
  | .getBytes =>
    match q.GetRequest m with
    | .ok (_, _, q2) => q2
    | .error _ => q
  | .sizeQuery => q

/-- The store state after a sequence of operations. -/
def runStoreOps (m : α → List Nat × Option GoErr) (ub : List Nat → Except GoErr α)
    (ops : List (StoreOp α)) (q : InMemoryQueueStorage α) : InMemoryQueueStorage α :=
  ops.foldl (applyStoreOp m ub) q

/-- Exhaustive characterization of `GetRequestPointer`: the empty case,
the corrupt case (nil `first` although `size ≠ 0`) and the regular pop. -/
theorem InMemoryQueueStorage.getPtr_cases (q : InMemoryQueueStorage α) :
    (q.size = 0 ∧ q.GetRequestPointer = .ok (none, none, q)) ∨
    (q.size ≠ 0 ∧ q.first = [] ∧ q.GetRequestPointer = .error .nilDereference) ∨
    (∃ a rest, q.size ≠ 0 ∧ q.first = a :: rest ∧
      q.GetRequestPointer =
        .ok (some a, none, { q with first := rest, size := q.size - 1 })) := by
  by_cases h : q.size = 0
  · exact Or.inl ⟨h, by simp [InMemoryQueueStorage.GetRequestPointer, h]⟩
  · cases hf : q.first with
    | nil =>
      exact Or.inr (Or.inl ⟨h, rfl, by simp [InMemoryQueueStorage.GetRequestPointer, h, hf]⟩)
    | cons a rest =>
      exact Or.inr (Or.inr ⟨a, rest, h, rfl,
        by simp [InMemoryQueueStorage.GetRequestPointer, h, hf]⟩)

/-- The counter `size` always equals the length of the chain reachable
from `first`: this holds for the zero value and is preserved by every
storage operation. -/
theorem applyStoreOp_size_eq_length (m : α → List Nat × Option GoErr)
    (ub : List Nat → Except GoErr α) (q : InMemoryQueueStorage α)
    (h : q.size = (q.first.length : Int)) (op : StoreOp α) :
    (applyStoreOp m ub q op).size = ((applyStoreOp m ub q op).first.length : Int) := by
  cases op with
  | initOp => simpa [applyStoreOp, InMemoryQueueStorage.Init] using h
  | addPtr r =>
    simp only [applyStoreOp, InMemoryQueueStorage.AddRequestPointer]
    split
    · simpa using h
    · simp [h]
  | addBytes b =>
    simp only [applyStoreOp, InMemoryQueueStorage.AddRequest]
    split
    · simpa using h
    · simp only [InMemoryQueueStorage.AddRequestPointer]
      split
      · simpa using h
      · simp [h]
  | getPtr =>
    rcases InMemoryQueueStorage.getPtr_cases q with ⟨h0, heq⟩ | ⟨h0, hf, heq⟩ |
      ⟨a, rest, h0, hf, heq⟩
    · simpa [applyStoreOp, heq] using h
    · simpa [applyStoreOp, heq] using h
    · simp only [applyStoreOp, heq]
      rw [h, hf]
      simp
  | getBytes =>
    rcases InMemoryQueueStorage.getPtr_cases q with ⟨h0, heq⟩ | ⟨h0, hf, heq⟩ |
      ⟨a, rest, h0, hf, heq⟩
    · simpa [applyStoreOp, InMemoryQueueStorage.GetRequest, heq] using h
    · simpa [applyStoreOp, InMemoryQueueStorage.GetRequest, heq] using h
    · simp only [applyStoreOp, InMemoryQueueStorage.GetRequest, heq]
      simp only [Option.isSome_none, Bool.false_eq_true, if_false]
      rw [h, hf]
      simp
  | sizeQuery => simpa [applyStoreOp] using h

theorem runStoreOps_size_eq_length (m : α → List Nat × Option GoErr)
    (ub : List Nat → Except GoErr α) (ops : List (StoreOp α))
    (q : InMemoryQueueStorage α) (h : q.size = (q.first.length : Int)) :
    (runStoreOps m ub ops q).size = ((runStoreOps m ub ops q).first.length : Int) := by
  induction ops generalizing q with
  | nil => simpa [runStoreOps] using h
  | cons op ops ih =>
    have := applyStoreOp_size_eq_length m ub q h op
    simpa [runStoreOps, List.foldl_cons] using ih (applyStoreOp m ub q op) this

/-- A successful `AddRequestPointer` call returns exactly the store with
the new payload linked at the tail, `size` incremented and `last`
pointing at the new node. -/
theorem InMemoryQueueStorage.addPtr_ok (q : InMemoryQueueStorage α) (r : α)
    (q2 : InMemoryQueueStorage α) (h : q.AddRequestPointer r = (none, q2)) :
    q2 = { q with first := q.first ++ [r], lastNil := false, size := q.size + 1 } := by
  unfold InMemoryQueueStorage.AddRequestPointer at h
  split at h
  · simp at h
  · injection h with h1 h2
    exact h2.symm

/-- Payloads returned by `n` consecutive `GetRequestPointer` calls,
together with the final store (a panic aborts the sequence). -/
def popPayloads : Nat → InMemoryQueueStorage α → List (Option α) × InMemoryQueueStorage α
  | 0, q => ([], q)
  | n + 1, q =>
    match q.GetRequestPointer with
    | .ok (r, _, q2) =>
      let p := popPayloads n q2
      (r :: p.1, p.2)
    | .error _ => ([], q)

/-- `Marshal` for `α := Nat` work items: injective, never failing. -/
def mNat : Nat → List Nat × Option GoErr := fun n => ([n], none)

/-- Byte-level deserialization for `α := Nat` work items. -/
def ubNat : List Nat → Except GoErr Nat := fun b =>
  match b with
  | [n] => .ok n
  | _ => .error (.other 0)

/-- A freshly initialized default in-memory store over `Nat` work items. -/
def emptyStoreNat : InMemoryQueueStorage Nat := ((newInMemory Nat 100000).Init).2

/-- The store obtained from a fresh unbounded in-memory store by appending
the item `5` and then popping it: its `size` is `0` again. -/
def c3State : InMemoryQueueStorage Nat :=
  runStoreOps mNat ubNat [.addPtr 5, .getPtr] ((newInMemory Nat 0).Init).2

/-- C3 counterexample: after `Init`, one append and one pop, `size` is `0`
and `first` is nil, but the `last` pointer is not nil (the pop never
resets it), refuting the claimed invariant `size == 0 ⇔ first == nil == last`. -/
theorem c3_last_not_reset_on_pop :
    c3State.size = 0 ∧ c3State.first = [] ∧ c3State.lastNil = false := by
  decide

/-- C3 (amended): for the in-memory store, the invariant
`size == 0 ⇔ first == nil` holds after `Init` and is preserved by every
operation (moreover `size` always equals the length of the chain); the
`last` pointer, nil after `Init`, is however not reset by pops, so it can
be non-nil while `size = 0`. -/
theorem c3_size_zero_iff_first_nil (α : Type) (m : α → List Nat × Option GoErr)
    (ub : List Nat → Except GoErr α) (ms : Int) (ops : List (StoreOp α)) :
    (((newInMemory α ms).Init).2.size = 0 ∧ ((newInMemory α ms).Init).2.first = [] ∧
      ((newInMemory α ms).Init).2.lastNil = true) ∧
    (runStoreOps m ub ops ((newInMemory α ms).Init).2).size =
      ((runStoreOps m ub ops ((newInMemory α ms).Init).2).first.length : Int) ∧
    ((runStoreOps m ub ops ((newInMemory α ms).Init).2).size = 0 ↔
      (runStoreOps m ub ops ((newInMemory α ms).Init).2).first = []) := by
  have h0 : ((newInMemory α ms).Init).2.size =
      ((((newInMemory α ms).Init).2.first.length : Nat) : Int) := by
    simp [newInMemory, InMemoryQueueStorage.Init]
  have hlen := runStoreOps_size_eq_length m ub ops _ h0
  refine ⟨⟨rfl, rfl, rfl⟩, hlen, ?_⟩
  rw [hlen]
  constructor
  · intro h
    have : (runStoreOps m ub ops ((newInMemory α ms).Init).2).first.length = 0 := by
      exact_mod_cast h
    exact List.length_eq_zero.mp this
  · intro h
    rw [h]
    simp

/-- C4: `GetRequest` on an empty store does not return an empty buffer and
a nil error: since `GetRequestPointer` signals emptiness with a nil
request and a nil error, the `err != nil` branch is skipped and
`r.Marshal()` is invoked on a nil request, a nil-pointer dereference. -/
theorem c4_getRequest_empty_store_dereferences_nil :
    emptyStoreNat.size = 0 ∧
    emptyStoreNat.GetRequest mNat = .error .nilDereference :=
  ⟨rfl, rfl⟩

/-- C5: with an active capacity bound (`MaxSize > 0`) already reached, an
append returns the distinguished `ErrQueueFull` and the store — `size`,
`first`, `last` and the chain — is returned unchanged. -/
theorem c5_full_append_rejected (α : Type) (q : InMemoryQueueStorage α) (r : α)
    (h1 : q.MaxSize > 0) (h2 : q.size ≥ q.MaxSize) :
    q.AddRequestPointer r = (some .errQueueFull, q) := by
  simp [InMemoryQueueStorage.AddRequestPointer, h1, h2]

/-- The store with `MaxSize = 1` holding one successfully appended item. -/
def c5q1 : InMemoryQueueStorage Nat := (((newInMemory Nat 1).Init).2.AddRequestPointer 10).2

/-- C5 witness: `MaxSize = 1`; the first append succeeds, the second is
rejected with the capacity error, and `QueueSize` still reports `1`. -/
theorem c5_full_append_rejected_witness :
    (((newInMemory Nat 1).Init).2.AddRequestPointer 10).1 = none ∧
    c5q1.AddRequestPointer 11 = (some .errQueueFull, c5q1) ∧
    c5q1.QueueSize = (1, none) := by
  refine ⟨by decide, c5_full_append_rejected Nat c5q1 11 (by decide) (by decide), by decide⟩

/-- C6: from an empty store, appending `a`, `b`, `c` in that order (all
three accepted) and then popping three times returns `a`, then `b`, then
`c`, leaving the store empty. -/
theorem c6_fifo (α : Type) (q0 : InMemoryQueueStorage α) (a b c : α)
    (h0 : q0.size = 0) (hf : q0.first = [])
    (q1 q2 q3 : InMemoryQueueStorage α)
    (h1 : q0.AddRequestPointer a = (none, q1))
    (h2 : q1.AddRequestPointer b = (none, q2))
    (h3 : q2.AddRequestPointer c = (none, q3)) :
    (popPayloads 3 q3).1 = [some a, some b, some c] ∧
    (popPayloads 3 q3).2.size = 0 ∧ (popPayloads 3 q3).2.first = [] := by
  have e1 := InMemoryQueueStorage.addPtr_ok q0 a q1 h1
  subst e1
  have e2 := InMemoryQueueStorage.addPtr_ok _ b q2 h2
  subst e2
  have e3 := InMemoryQueueStorage.addPtr_ok _ c q3 h3
  subst e3
  simp only [popPayloads, InMemoryQueueStorage.GetRequestPointer, hf, h0]
  norm_num

/-- The store holding `1`, `2`, `3` appended in that order. -/
def c6q1 : InMemoryQueueStorage Nat := (emptyStoreNat.AddRequestPointer 1).2

def c6q2 : InMemoryQueueStorage Nat := (c6q1.AddRequestPointer 2).2

def c6q3 : InMemoryQueueStorage Nat := (c6q2.AddRequestPointer 3).2

/-- C6 witness: the FIFO property at the concrete items `1`, `2`, `3`. -/
theorem c6_fifo_witness :
    (popPayloads 3 c6q3).1 = [some 1, some 2, some 3] ∧
    (popPayloads 3 c6q3).2.size = 0 ∧ (popPayloads 3 c6q3).2.first = [] :=
  c6_fifo Nat emptyStoreNat 1 2 3 (by decide) (by decide) c6q1 c6q2 c6q3
    (by decide) (by decide) (by decide)

/-- C10: `GetRequestPointer` and `QueueSize` never return a non-nil error:
on an empty store the pointer pop returns a nil request with a nil error,
and consequently the `err != nil` branch of `GetRequest` is unreachable —
`GetRequest` coincides with its branch-elided version on every store. -/
theorem c10_pointer_pop_never_errors (α : Type) (m : α → List Nat × Option GoErr)
    (q : InMemoryQueueStorage α) :
    (∀ r e q2, q.GetRequestPointer = .ok (r, e, q2) → e = none) ∧
    q.QueueSize = (q.size, none) ∧
    (q.size = 0 → q.GetRequestPointer = .ok (none, none, q)) ∧
    q.GetRequest m = q.GetRequestElided m := by
  refine ⟨?_, rfl, ?_, ?_⟩
  · intro r e q2 h
    rcases InMemoryQueueStorage.getPtr_cases q with ⟨h0, heq⟩ | ⟨h0, hfn, heq⟩ |
      ⟨a, rest, h0, hfn, heq⟩ <;> rw [heq] at h <;> simp at h
    · exact h.2.1.symm
    · exact h.2.1.symm
  · intro h0
    simp [InMemoryQueueStorage.GetRequestPointer, h0]
  · unfold InMemoryQueueStorage.GetRequest InMemoryQueueStorage.GetRequestElided
    rcases InMemoryQueueStorage.getPtr_cases q with ⟨h0, heq⟩ | ⟨h0, hfn, heq⟩ |
      ⟨a, rest, h0, hfn, heq⟩ <;> rw [heq] <;> simp

/-- C10 witness: the properties evaluated on the empty default store. -/
theorem c10_pointer_pop_never_errors_witness :
    emptyStoreNat.GetRequestPointer = .ok (none, none, emptyStoreNat) ∧
    emptyStoreNat.QueueSize = (0, none) ∧
    emptyStoreNat.GetRequest mNat = emptyStoreNat.GetRequestElided mNat := by
  refine ⟨(c10_pointer_pop_never_errors Nat mNat emptyStoreNat).2.2.1 (by decide),
    (c10_pointer_pop_never_errors Nat mNat emptyStoreNat).2.1,
    (c10_pointer_pop_never_errors Nat mNat emptyStoreNat).2.2.2⟩

/-- The operations of an external (non-in-memory) storage backend
satisfying the `Storage` contract, acting on an abstract backend state
`ε`.  Only `Init` and `AddRequest` are reachable from the modelled
coordinator operations (`Run`'s loop is modelled for the default
in-memory backend below). -/
structure ExtOps (ε : Type) where
  init : ε → Option GoErr × ε
  addRequest : List Nat → ε → Option GoErr × ε

/-- A value of the `Storage` interface: either the bundled in-memory
backend or an external one. -/
inductive GoStorage (α ε : Type)
  | inMem (s : InMemoryQueueStorage α)
  | ext (s : ε)

/-- Dispatch of `Storage.Init` over the interface value. -/
def GoStorage.initCall (ops : ExtOps ε) : GoStorage α ε → Option GoErr × GoStorage α ε
  | .inMem s => ((s.Init).1, .inMem (s.Init).2)
  | .ext s => ((ops.init s).1, .ext (ops.init s).2)

/-- The coordinator (`Queue` in queue.go).  `wake` records whether the
wake channel is non-nil, i.e. whether `Run` has been entered. -/
structure Queue (α ε : Type) where
  Threads : Int
  storage : GoStorage α ε
  wake : Bool

/-- A storage-contract call, for recording which calls a coordinator
operation performs. -/
inductive StorageCall
  | initCall
  | addRequestCall
  | getRequestCall
  | queueSizeCall
  deriving DecidableEq

/-- `New` (queue.go:56-67): a nil storage argument is replaced by
`&InMemoryQueueStorage{MaxSize: 100000}`; then `s.Init()` is called — the
single storage call `New` performs — and an `Init` error is returned with
no coordinator.  The returned trace lists the storage calls made. -/
def New (ops : ExtOps ε) (threads : Int) (s : Option (GoStorage α ε)) :
    Except GoErr (Queue α ε) × List StorageCall :=
  let s0 := match s with
    | none => GoStorage.inMem (newInMemory α 100000)
    | some st => st
  match s0.initCall ops with
  | (some e, _) => (.error e, [.initCall])
  | (none, s1) => (.ok { Threads := threads, storage := s1, wake := false }, [.initCall])

/-- `storeRequest` (queue.go:114-125): the in-memory backend receives the
request pointer directly (zero-serialization fast path); any other
backend receives `r.Marshal()` bytes, a marshalling error being returned
without a storage call.  `mr` embeds `(*colly.Request).Marshal`. -/
def Queue.storeRequest (ops : ExtOps ε) (mr : α → List Nat × Option GoErr)
    (q : Queue α ε) (r : α) : Option GoErr × Queue α ε :=
  match q.storage with
  | .inMem s =>
    ((s.AddRequestPointer r).1, { q with storage := .inMem (s.AddRequestPointer r).2 })
  | .ext s =>
    if (mr r).2.isSome then ((mr r).2, q)
    else ((ops.addRequest (mr r).1 s).1,
      { q with storage := .ext (ops.addRequest (mr r).1 s).2 })

/-- Externally visible effects of an `AddRequest` call, in order. -/
inductive QEvent
  | itemStored
  | wakeSent
  deriving DecidableEq

/-- `Queue.AddRequest` (queue.go:99-112): read `wake` under the mutex; if
`Run` is not active, just store; if active, store first and send the wake
notification only when the store succeeded, otherwise return the store
error.  The event list records, in order, a successful store and a wake
send. -/
def Queue.AddRequest (ops : ExtOps ε) (mr : α → List Nat × Option GoErr)
    (q : Queue α ε) (r : α) : Option GoErr × Queue α ε × List QEvent :=
  let waken := q.wake
  if waken = false then
    ((q.storeRequest ops mr r).1, (q.storeRequest ops mr r).2,
      if (q.storeRequest ops mr r).1.isSome then [] else [.itemStored])
  else
    match q.storeRequest ops mr r with
    | (some e, q2) => (some e, q2, [])
    | (none, q2) => (none, q2, [.itemStored, .wakeSent])

/-- The prologue of `Run` (queue.go:135-142): under the mutex, a non-nil
wake channel — `Run` already entered — is a fatal
`panic("cannot call duplicate Queue.Run")`; otherwise the wake channel is
created and `Run` proceeds. -/
def Queue.RunEnter (q : Queue α ε) : Except GoPanic (Queue α ε) :=
  if q.wake then .error (.panicCalled "cannot call duplicate Queue.Run")
  else .ok { q with wake := true }

/-- `storeRequest` only updates the storage handle: the wake channel and
the thread count of the coordinator are untouched. -/
theorem Queue.storeRequest_wake (ops : ExtOps ε) (mr : α → List Nat × Option GoErr)
    (q : Queue α ε) (r : α) :
    ((q.storeRequest ops mr r).2).wake = q.wake := by
  rcases q with ⟨t, st, w⟩
  cases st with
  | inMem s => rfl
  | ext s =>
    by_cases h : (mr r).2.isSome
    · simp [Queue.storeRequest, h]
    · simp [Queue.storeRequest, h]

/-- C7: when `Run` is active, `AddRequest` stores the item and only then
sends the wake notification; a store failure is returned to the caller
and suppresses the notification; when `Run` is inactive the item is only
stored and no notification is attempted. -/
theorem c7_store_before_wake (α ε : Type) (ops : ExtOps ε)
    (mr : α → List Nat × Option GoErr) (q : Queue α ε) (r : α) :
    (q.wake = true →
      (∀ q2, q.storeRequest ops mr r = (none, q2) →
        q.AddRequest ops mr r = (none, q2, [.itemStored, .wakeSent])) ∧
      (∀ e q2, q.storeRequest ops mr r = (some e, q2) →
        q.AddRequest ops mr r = (some e, q2, []))) ∧
    (q.wake = false →
      (∀ q2, q.storeRequest ops mr r = (none, q2) →
        q.AddRequest ops mr r = (none, q2, [.itemStored])) ∧
      (∀ e q2, q.storeRequest ops mr r = (some e, q2) →
        q.AddRequest ops mr r = (some e, q2, []))) := by
  constructor
  · intro hw
    constructor
    · intro q2 hs
      simp [Queue.AddRequest, hw, hs]
    · intro e q2 hs
      simp [Queue.AddRequest, hw, hs]
  · intro hw
    constructor
    · intro q2 hs
      simp [Queue.AddRequest, hw, hs]
    · intro e q2 hs
      simp [Queue.AddRequest, hw, hs]

/-- A coordinator over the default in-memory backend with an active `Run`. -/
def qActiveNat : Queue Nat Unit :=
  { Threads := 2, storage := .inMem emptyStoreNat, wake := true }

/-- Trivial external-backend operations for witnesses. -/
def extOpsUnit : ExtOps Unit :=
  { init := fun s => (none, s), addRequest := fun _ s => (none, s) }

/-- External-backend operations whose `Init` fails. -/
def extOpsInitFails : ExtOps Unit :=
  { init := fun s => (some (.other 7), s), addRequest := fun _ s => (none, s) }

/-- C7 witness: on an active coordinator with the empty default store,
storing the item `4` succeeds and the wake notification follows the
store. -/
theorem c7_store_before_wake_witness :
    qActiveNat.AddRequest extOpsUnit mNat 4 =
      (none, { qActiveNat with storage := .inMem (emptyStoreNat.AddRequestPointer 4).2 },
        [.itemStored, .wakeSent]) :=
  ((c7_store_before_wake Nat Unit extOpsUnit mNat qActiveNat 4).1 rfl).1
    { qActiveNat with storage := .inMem (emptyStoreNat.AddRequestPointer 4).2 } rfl

/-- C8: entering `Run` while the wake channel is already non-nil is the
fatal `panic("cannot call duplicate Queue.Run")` — not a recoverable
error, a no-op, or a second loop; a first `Run` creates the wake channel,
and no coordinator operation resets it (`AddRequest` preserves it,
`RunEnter` only sets it). -/
theorem c8_duplicate_run_is_fatal (α ε : Type) (q : Queue α ε) :
    (q.wake = true →
      q.RunEnter = .error (.panicCalled "cannot call duplicate Queue.Run")) ∧
    (q.wake = false → q.RunEnter = .ok { q with wake := true }) ∧
    (∀ q2, q.RunEnter = .ok q2 → q2.wake = true ∧ q2.storage = q.storage ∧
      q2.Threads = q.Threads) ∧
    (∀ ops mr r, ((q.AddRequest ops mr r).2.1).wake = q.wake) := by
  refine ⟨?_, ?_, ?_, ?_⟩
  · intro hw
    simp [Queue.RunEnter, hw]
  · intro hw
    simp [Queue.RunEnter, hw]
  · intro q2 h
    unfold Queue.RunEnter at h
    split at h
    · simp at h
    · injection h with h2
      subst h2
      exact ⟨rfl, rfl, rfl⟩
  · intro ops mr r
    rcases hs : q.storeRequest ops mr r with ⟨e, q2⟩
    have hq2 : q2.wake = q.wake := by
      rw [← Queue.storeRequest_wake ops mr q r, hs]
    unfold Queue.AddRequest
    by_cases hw : q.wake = false
    · simp [hw, hs, hq2]
    · cases e with
      | none => simp [hw, hs, hq2]
      | some e => simp [hw, hs, hq2]

/-- C8 witness: the duplicate-`Run` panic on an active coordinator, and
the first `Run` on the fresh coordinator creating the wake channel. -/
theorem c8_duplicate_run_is_fatal_witness :
    qActiveNat.RunEnter = .error (.panicCalled "cannot call duplicate Queue.Run") ∧
    ({ qActiveNat with wake := false } : Queue Nat Unit).RunEnter =
      .ok { qActiveNat with wake := true } ∧
    ((qActiveNat.AddRequest extOpsUnit mNat 4).2.1).wake = true :=
  ⟨(c8_duplicate_run_is_fatal Nat Unit qActiveNat).1 rfl,
    (c8_duplicate_run_is_fatal Nat Unit { qActiveNat with wake := false }).2.1 rfl,
    (c8_duplicate_run_is_fatal Nat Unit qActiveNat).2.2.2 extOpsUnit mNat 4⟩

/-- C9: `New` with a nil storage argument installs the in-memory backend
with capacity exactly `100000` and calls its `Init` — the only storage
call made, hence exactly once and before any other operation; and for any
storage whose `Init` fails with `e`, `New` returns the error `e` and no
coordinator. -/
theorem c9_new_defaults_and_init (α ε : Type) (ops : ExtOps ε) (threads : Int) :
    (New ops threads (none : Option (GoStorage α ε)) =
      (.ok { Threads := threads,
             storage := .inMem { MaxSize := 100000, lockInitialized := true,
                                 size := 0, first := [], lastNil := true },
             wake := false }, [.initCall])) ∧
    (∀ (s : GoStorage α ε) e s2, s.initCall ops = (some e, s2) →
      New ops threads (some s) = (.error e, [.initCall])) := by
  constructor
  · rfl
  · intro s e s2 h
    unfold New
    simp only
    rw [h]

/-- C9 witness: the nil-storage default at `threads = 3`, and a failing
external `Init` propagated as the construction error. -/
theorem c9_new_defaults_and_init_witness :
    (New extOpsUnit 3 (none : Option (GoStorage Nat Unit)) =
      (.ok { Threads := 3,
             storage := .inMem { MaxSize := 100000, lockInitialized := true,
                                 size := 0, first := [], lastNil := true },
             wake := false }, [.initCall])) ∧
    New extOpsInitFails 3 (some (.ext ()) : Option (GoStorage Nat Unit)) =
      (.error (.other 7), [.initCall]) :=
  ⟨(c9_new_defaults_and_init Nat Unit extOpsUnit 3).1,
    (c9_new_defaults_and_init Nat Unit extOpsInitFails 3).2 (.ext ()) (.other 7)
      (.ext ()) rfl⟩

/-- Program counter of the dispatch loop `Queue.loop` (queue.go:154-199).
`query` is the top of the outer `for` (about to call `QueueSize`);
`check n` holds the freshly read size `n`, about to evaluate the
termination condition; `load` is about to call `loadRequest`; `offer off`
is the inner `Sent` select loop with `off` the loaded request (`none`
embeds `sent = nil`, the no-item round); `exited` is after `break`. -/
inductive LoopPC (α : Type)
  | query
  | check (sizeRead : Int)
  | load
  | offer (offering : Option α)
  | exited
  deriving DecidableEq

/-- Global state of a running `Queue.Run` over the default in-memory
backend: the storage, the loop's control point and `active` counter, the
worker pool (`idle` workers blocked receiving on `requestc`, `busy`
workers inside `req.Do()`, `completing` workers blocked sending on
`complete`), producers blocked sending on the wake channel
(`wakeSenders`, their stores already performed), and the value sent on
`errc` (`done`).  `stored` and `sinceQuery` are history variables:
every item ever successfully stored, and those stored since the loop's
latest `QueueSize` query.  `executed` lists the items whose `req.Do()`
has run, in completion order. -/
structure Sys (α : Type) where
  storage : InMemoryQueueStorage α
  pc : LoopPC α
  active : Int
  idle : Nat
  busy : List α
  completing : Nat
  wakeSenders : Nat
  done : Option (Option GoErr)
  stored : List α
  executed : List α
  sinceQuery : List α
  deriving DecidableEq

/-- One interleaved step of the dispatch loop, a worker, or a producer.
`m` embeds `(*colly.Request).Marshal` and `u` embeds
`Collector.UnmarshalRequest` (external serialization collaborators).
Unbuffered channel communication (`requestc`, `complete`, the wake
channel) is embedded as a rendezvous: one step couples the sender and the
receiver.

* `querySize`: `size, err := q.storage.QueueSize()` — for this backend the
  error is always nil, so the `errc <- err` branch is dead.
* `checkExit`: `size == 0 && active == 0` holds — `errc <- nil; break`
  (`errc` has capacity 1, so the send completes at once).
* `checkLoad` / `checkWait`: fall through to `loadRequest` when
  `size > 0`, or to the select with `sent = nil` otherwise.
* `loadOk` / `loadFailMarshal` / `loadFailUnmarshal`: `loadRequest` pops
  via `GetRequest` (the pointer fast path is commented out in the source)
  and unmarshals; on any error the loop `continue`s, the popped item
  being dropped.
* `handoff`: `sent <- req` pairs with an idle worker's receive —
  `active++`, `break Sent`.
* `recvWake`: `<-q.wake` pairs with a blocked producer; `break Sent` only
  when `sent == nil`.
* `recvComplete`: `<-complete` pairs with a completing worker —
  `active--`; `break Sent` when `sent == nil && active == 0`.
* `execDo`: a busy worker finishes `req.Do()` (any worker may finish
  first) and moves to sending on `complete`.
* `produceOk` / `produceFull`: a producer's `AddRequest` while the wake
  channel is non-nil: `storeRequest` succeeds and the producer proceeds to
  the (blocking) wake send, or the store is rejected and the producer
  returns the error without a wake send. -/
inductive Step (m : α → List Nat × Option GoErr) (u : List Nat → Option α) :
    Sys α → Sys α → Prop
  | querySize (s : Sys α) (h : s.pc = .query) :
      Step m u s { s with pc := .check s.storage.size, sinceQuery := [] }
  | checkExit (s : Sys α) (h : s.pc = .check 0) (ha : s.active = 0) :
      Step m u s { s with pc := .exited, done := some none }
  | checkLoad (s : Sys α) (n : Int) (h : s.pc = .check n) (hn : 0 < n) :
      Step m u s { s with pc := .load }
  | checkWait (s : Sys α) (n : Int) (h : s.pc = .check n) (hn : ¬ 0 < n)
      (ha : ¬ (n = 0 ∧ s.active = 0)) :
      Step m u s { s with pc := .offer none }
  | loadOk (s : Sys α) (r : α) (st2 : InMemoryQueueStorage α) (d : List Nat) (r2 : α)
      (h : s.pc = .load)
      (hp : s.storage.GetRequestPointer = .ok (some r, none, st2))
      (hm : m r = (d, none)) (hu : u d = some r2) :
      Step m u s { s with storage := st2, pc := .offer (some r2) }
  | loadFailMarshal (s : Sys α) (r : α) (st2 : InMemoryQueueStorage α) (e : GoErr)
      (h : s.pc = .load)
      (hp : s.storage.GetRequestPointer = .ok (some r, none, st2))
      (hm : (m r).2 = some e) :
      Step m u s { s with storage := st2, pc := .query }
  | loadFailUnmarshal (s : Sys α) (r : α) (st2 : InMemoryQueueStorage α) (d : List Nat)
      (h : s.pc = .load)
      (hp : s.storage.GetRequestPointer = .ok (some r, none, st2))
      (hm : m r = (d, none)) (hu : u d = none) :
      Step m u s { s with storage := st2, pc := .query }
  | handoff (s : Sys α) (r : α) (h : s.pc = .offer (some r)) (hi : 0 < s.idle) :
      Step m u s { s with pc := .query, idle := s.idle - 1, busy := s.busy ++ [r],
                          active := s.active + 1 }
  | recvWake (s : Sys α) (off : Option α) (h : s.pc = .offer off)
      (hw : 0 < s.wakeSenders) :
      Step m u s { s with wakeSenders := s.wakeSenders - 1,
                          pc := if off.isNone then .query else .offer off }
  | recvComplete (s : Sys α) (off : Option α) (h : s.pc = .offer off)
      (hc : 0 < s.completing) :
      Step m u s { s with completing := s.completing - 1, idle := s.idle + 1,
                          active := s.active - 1,
                          pc := if off.isNone ∧ s.active - 1 = 0 then .query
                                else .offer off }
  | execDo (s : Sys α) (l1 : List α) (r : α) (l2 : List α)
      (hb : s.busy = l1 ++ r :: l2) :
      Step m u s { s with busy := l1 ++ l2, executed := s.executed ++ [r],
                          completing := s.completing + 1 }
  | produceOk (s : Sys α) (x : α) (st2 : InMemoryQueueStorage α)
      (hs : s.storage.AddRequestPointer x = (none, st2)) :
      Step m u s { s with storage := st2, stored := s.stored ++ [x],
                          sinceQuery := s.sinceQuery ++ [x],
                          wakeSenders := s.wakeSenders + 1 }
  | produceFull (s : Sys α) (x : α) (e : GoErr)
      (hs : (s.storage.AddRequestPointer x).1 = some e) :
      Step m u s s

/-- Finitely many interleaved steps. -/
def Steps (m : α → List Nat × Option GoErr) (u : List Nat → Option α) :
    Sys α → Sys α → Prop :=
  Relation.ReflTransGen (Step m u)

/-- The state at the start of `Run`'s loop: a storage backend `st0`
holding the items enqueued before `Run`, `threads` idle workers spawned
on `requestc`, `active = 0`, no pending signals. -/
def Sys.init (st0 : InMemoryQueueStorage α) (threads : Nat) : Sys α :=
  { storage := st0, pc := .query, active := 0, idle := threads, busy := [],
    completing := 0, wakeSenders := 0, done := none, stored := st0.first,
    executed := [], sinceQuery := [] }

/-- The request held by the loop while it is inside the `Sent` select. -/
def offItems : LoopPC α → List α
  | .offer (some r) => [r]
  | _ => []

/-- The inductive invariant of the running system: the `size` counter
matches the chain; `active` counts items handed to a worker and not yet
completion-acknowledged; every stored item is in exactly one place
(backlog, the loop's hand, a busy worker, or executed); at `check n` the
backlog splits into the `n` items seen by the query plus those stored
since; and after a successful exit `active` is zero and the backlog holds
exactly the items stored since the final query. -/
def SysInv [DecidableEq α] (s : Sys α) : Prop :=
  s.storage.size = (s.storage.first.length : Int) ∧
  s.active = (s.busy.length : Int) + (s.completing : Int) ∧
  (∀ x, s.stored.count x =
    s.storage.first.count x + (offItems s.pc).count x + s.busy.count x +
      s.executed.count x) ∧
  (∀ n, s.pc = .check n →
    ∃ pre, s.storage.first = pre ++ s.sinceQuery ∧ (pre.length : Int) = n) ∧
  (s.done = some none →
    s.active = 0 ∧ s.pc = .exited ∧ s.storage.first = s.sinceQuery)

theorem sysInv_init [DecidableEq α] (st0 : InMemoryQueueStorage α) (threads : Nat)
    (h : st0.size = (st0.first.length : Int)) : SysInv (Sys.init st0 threads) := by
  refine ⟨h, by simp [Sys.init], ?_, ?_, ?_⟩
  · intro x
    simp [Sys.init, offItems]
  · intro n hn
    simp [Sys.init] at hn
  · intro hd
    simp [Sys.init] at hd

theorem sysInv_step [DecidableEq α] (m : α → List Nat × Option GoErr)
    (u : List Nat → Option α) (RT : ∀ r : α, (m r).2 = none ∧ u (m r).1 = some r)
    (s s2 : Sys α) (hI : SysInv s) (h : Step m u s s2) : SysInv s2 := by
  obtain ⟨hwf, hcnt, hacct, hchk, hdone⟩ := hI
  cases h with
  | querySize h =>
    refine ⟨hwf, hcnt, ?_, ?_, ?_⟩
    · intro x
      have hx := hacct x
      rw [h] at hx
      simpa [offItems] using hx
    · intro n hn
      simp only at hn
      cases hn
      exact ⟨s.storage.first, by simp, hwf.symm⟩
    · intro hd
      have hpc := (hdone hd).2.1
      rw [h] at hpc
      simp at hpc
  | checkExit h ha =>
    obtain ⟨pre, hpre, hlen⟩ := hchk 0 h
    have hpre0 : pre = [] := by
      have : pre.length = 0 := by exact_mod_cast hlen
      exact List.length_eq_zero.mp this
    refine ⟨hwf, hcnt, ?_, ?_, ?_⟩
    · intro x
      have hx := hacct x
      rw [h] at hx
      simpa [offItems] using hx
    · intro n hn
      simp at hn
    · intro _
      refine ⟨ha, rfl, ?_⟩
      show s.storage.first = s.sinceQuery
      rw [hpre, hpre0]
      simp
  | checkLoad n h hn =>
    refine ⟨hwf, hcnt, ?_, ?_, ?_⟩
    · intro x
      have hx := hacct x
      rw [h] at hx
      simpa [offItems] using hx
    · intro n2 hn2
      simp at hn2
    · intro hd
      have hpc := (hdone hd).2.1
      rw [h] at hpc
      simp at hpc
  | checkWait n h hn ha =>
    refine ⟨hwf, hcnt, ?_, ?_, ?_⟩
    · intro x
      have hx := hacct x
      rw [h] at hx
      simpa [offItems] using hx
    · intro n2 hn2
      simp at hn2
    · intro hd
      have hpc := (hdone hd).2.1
      rw [h] at hpc
      simp at hpc
  | loadOk r st2 d r2 h hp hm hu =>
    have hr2 : r2 = r := by
      have h1 := (RT r).2
      rw [hm] at h1
      simp only at h1
      rw [hu] at h1
      exact Option.some_inj.mp h1
    subst hr2
    rcases InMemoryQueueStorage.getPtr_cases s.storage with ⟨h0, heq⟩ |
      ⟨h0, hfn, heq⟩ | ⟨a, rest, h0, hfn, heq⟩
    · rw [heq] at hp
      simp at hp
    · rw [heq] at hp
      simp at hp
    · rw [heq] at hp
      simp only [Except.ok.injEq, Prod.mk.injEq, Option.some.injEq, true_and] at hp
      obtain ⟨ha1, hst2⟩ := hp
      subst ha1
      subst hst2
      refine ⟨?_, hcnt, ?_, ?_, ?_⟩
      · show s.storage.size - 1 = (rest.length : Int)
        rw [hwf, hfn]
        simp
      · intro x
        have hx := hacct x
        rw [h, hfn] at hx
        simp only [offItems, List.count_cons, List.count_nil] at hx ⊢
        omega
      · intro n hn
        simp at hn
      · intro hd
        have hpc := (hdone hd).2.1
        rw [h] at hpc
        simp at hpc
  | loadFailMarshal r st2 e h hp hm =>
    have h1 := (RT r).1
    rw [h1] at hm
    simp at hm
  | loadFailUnmarshal r st2 d h hp hm hu =>
    have h1 := (RT r).2
    rw [hm] at h1
    simp only at h1
    rw [hu] at h1
    simp at h1
  | handoff r h hi =>
    refine ⟨hwf, ?_, ?_, ?_, ?_⟩
    · show s.active + 1 = ((s.busy ++ [r]).length : Int) + (s.completing : Int)
      simp only [List.length_append, List.length_cons, List.length_nil]
      omega
    · intro x
      have hx := hacct x
      rw [h] at hx
      simp only [offItems, List.count_append, List.count_cons, List.count_nil] at hx ⊢
      omega
    · intro n hn
      simp at hn
    · intro hd
      have hpc := (hdone hd).2.1
      rw [h] at hpc
      simp at hpc
  | recvWake off h hw =>
    refine ⟨hwf, hcnt, ?_, ?_, ?_⟩
    · intro x
      have hx := hacct x
      rw [h] at hx
      rcases off with _ | r
      · simpa [offItems] using hx
      · simpa [offItems] using hx
    · intro n hn
      simp only at hn
      rcases off with _ | r
      · simp at hn
      · simp at hn
    · intro hd
      have hpc := (hdone hd).2.1
      rw [h] at hpc
      simp at hpc
  | recvComplete off h hc =>
    refine ⟨hwf, ?_, ?_, ?_, ?_⟩
    · show s.active - 1 = ((s.busy.length : Nat) : Int) + ((s.completing - 1 : Nat) : Int)
      omega
    · intro x
      have hx := hacct x
      rw [h] at hx
      rcases off with _ | r
      · by_cases hcond : s.active - 1 = 0
        · simpa [offItems, hcond] using hx
        · simpa [offItems, hcond] using hx
      · simpa [offItems] using hx
    · intro n hn
      simp only at hn
      split at hn
      · simp at hn
      · simp at hn
    · intro hd
      have hpc := (hdone hd).2.1
      rw [h] at hpc
      simp at hpc
  | execDo l1 r l2 hb =>
    refine ⟨hwf, ?_, ?_, ?_, ?_⟩
    · have hx := hcnt
      rw [hb] at hx
      show s.active = ((l1 ++ l2).length : Int) + ((s.completing + 1 : Nat) : Int)
      simp only [List.length_append, List.length_cons, List.length_nil] at hx ⊢
      omega
    · intro x
      have hx := hacct x
      rw [hb] at hx
      simp only [List.count_append, List.count_cons, List.count_nil] at hx ⊢
      omega
    · intro n hn
      simp only at hn
      exact hchk n hn
    · intro hd
      obtain ⟨ha0, hpc, hfs⟩ := hdone hd
      have hz : (s.busy.length : Int) + (s.completing : Int) = 0 := by
        rw [← hcnt]
        exact ha0
      have hlen : s.busy.length = 0 := by omega
      rw [hb] at hlen
      simp at hlen
  | produceOk x st2 hs =>
    have hst2 := InMemoryQueueStorage.addPtr_ok _ _ _ hs
    subst hst2
    refine ⟨?_, hcnt, ?_, ?_, ?_⟩
    · show s.storage.size + 1 = ((s.storage.first ++ [x]).length : Int)
      rw [hwf]
      simp
    · intro x2
      have hx := hacct x2
      simp only [offItems, List.count_append, List.count_cons, List.count_nil] at hx ⊢
      omega
    · intro n hn
      simp only at hn
      obtain ⟨pre, hpre, hlen⟩ := hchk n hn
      refine ⟨pre, ?_, hlen⟩
      show s.storage.first ++ [x] = pre ++ (s.sinceQuery ++ [x])
      rw [hpre, List.append_assoc]
    · intro hd
      obtain ⟨ha0, hpc, hfs⟩ := hdone hd
      refine ⟨ha0, hpc, ?_⟩
      show s.storage.first ++ [x] = s.sinceQuery ++ [x]
      rw [hfs]
  | produceFull x e hs =>
    exact ⟨hwf, hcnt, hacct, hchk, hdone⟩

theorem sysInv_steps [DecidableEq α] (m : α → List Nat × Option GoErr)
    (u : List Nat → Option α) (RT : ∀ r : α, (m r).2 = none ∧ u (m r).1 = some r)
    (s s2 : Sys α) (hI : SysInv s) (h : Steps m u s s2) : SysInv s2 := by
  induction h with
  | refl => exact hI
  | tail _ hstep ih => exact sysInv_step m u RT _ _ ih hstep

/-- C1 (amended): in every run of the system, no item is ever executed
more often than it was stored; and when `Run` has returned success, every
successfully stored item has been executed exactly once except those
stored after the loop's final backlog query (a producer racing the
termination check), which remain in the backend unexecuted — the backlog
at exit is exactly the post-final-query stores.  (`RT` states that the
external serialization collaborators round-trip: `Marshal` succeeds and
`UnmarshalRequest` inverts it; the claim's standing assumption that the
executor never blocks is reflected in `execDo` being always available for
busy workers.) -/
theorem c1_stored_executed_exactly_once (α : Type) [DecidableEq α]
    (m : α → List Nat × Option GoErr) (u : List Nat → Option α)
    (RT : ∀ r : α, (m r).2 = none ∧ u (m r).1 = some r)
    (st0 : InMemoryQueueStorage α) (h0 : st0.size = (st0.first.length : Int))
    (threads : Nat) (s : Sys α) (hs : Steps m u (Sys.init st0 threads) s) :
    (∀ x, s.executed.count x ≤ s.stored.count x) ∧
    (s.done = some none →
      (∀ x, s.stored.count x = s.storage.first.count x + s.executed.count x) ∧
      s.storage.first = s.sinceQuery) := by
  have hI := sysInv_steps m u RT _ s (sysInv_init st0 threads h0) hs
  obtain ⟨hwf, hcnt, hacct, hchk, hdone⟩ := hI
  constructor
  · intro x
    have hx := hacct x
    omega
  · intro hd
    obtain ⟨ha0, hpc, hfs⟩ := hdone hd
    refine ⟨?_, hfs⟩
    intro x
    have hx := hacct x
    have hz : (s.busy.length : Int) + (s.completing : Int) = 0 := by
      rw [← hcnt]
      exact ha0
    have hlen : s.busy.length = 0 := by omega
    have hb2 : s.busy = [] := List.length_eq_zero.mp hlen
    rw [hpc, hb2] at hx
    simpa [offItems] using hx

/-- C2 (amended): `Run` reports success only from an iteration whose
freshly queried backlog size was `0` with `active = 0`; once it has,
`Size()` — i.e. `QueueSize` — returns exactly the number of items stored
since that final query: `0` unless a producer raced the termination
check. -/
theorem c2_run_exit_condition (α : Type) [DecidableEq α]
    (m : α → List Nat × Option GoErr) (u : List Nat → Option α)
    (RT : ∀ r : α, (m r).2 = none ∧ u (m r).1 = some r)
    (st0 : InMemoryQueueStorage α) (h0 : st0.size = (st0.first.length : Int))
    (threads : Nat) (s : Sys α) (hs : Steps m u (Sys.init st0 threads) s)
    (hd : s.done = some none) :
    s.active = 0 ∧
    s.storage.QueueSize = ((s.sinceQuery.length : Int), none) ∧
    (s.sinceQuery = [] → s.storage.QueueSize = (0, none)) := by
  have hI := sysInv_steps m u RT _ s (sysInv_init st0 threads h0) hs
  obtain ⟨hwf, hcnt, hacct, hchk, hdone⟩ := hI
  obtain ⟨ha0, hpc, hfs⟩ := hdone hd
  have hq : s.storage.QueueSize = ((s.sinceQuery.length : Int), none) := by
    show (s.storage.size, (none : Option GoErr)) = _
    rw [hwf, hfs]
  refine ⟨ha0, hq, ?_⟩
  intro hnil
  rw [hq, hnil]
  simp

/-- `Collector.UnmarshalRequest` for `Nat` work items: inverts `mNat`. -/
def uNat : List Nat → Option Nat := fun b => b.head?

/-- `Run` entered on a fresh default queue with one worker thread. -/
def raceS0 : Sys Nat := Sys.init emptyStoreNat 1

/-- The backend holding the single raced item `7`. -/
def raceStore1 : InMemoryQueueStorage Nat :=
  { MaxSize := 100000, lockInitialized := true, size := 1, first := [7], lastNil := false }

/-- The loop has read backlog size `0` and stands before the termination
check. -/
def raceMid1 : Sys Nat := { raceS0 with pc := .check 0, sinceQuery := [] }

/-- A producer's `AddRequest` stores item `7` and moves to the wake send
— after the loop's final query. -/
def raceMid2 : Sys Nat :=
  { raceMid1 with storage := raceStore1, stored := [7], sinceQuery := [7],
                  wakeSenders := 1 }

/-- The loop passes the (stale) termination check and exits with success;
the producer is still blocked on the wake send and item `7` is stored but
never executed. -/
def raceFinal : Sys Nat := { raceMid2 with pc := .exited, done := some none }

theorem race_step1 : Step mNat uNat raceS0 raceMid1 :=
  Step.querySize raceS0 rfl

theorem race_step2 : Step mNat uNat raceMid1 raceMid2 :=
  Step.produceOk raceMid1 7 raceStore1 (by decide)

theorem race_step3 : Step mNat uNat raceMid2 raceFinal :=
  Step.checkExit raceMid2 rfl rfl

theorem race_steps : Steps mNat uNat raceS0 raceFinal :=
  Relation.ReflTransGen.head race_step1
    (Relation.ReflTransGen.head race_step2 (Relation.ReflTransGen.single race_step3))

/-- C1 counterexample: an execution in which a producer stores item `7`
between the loop's final backlog query and its exit; `Run` returns
success while the successfully stored item `7` was never executed. -/
theorem c1_counterexample_lost_item :
    Steps mNat uNat raceS0 raceFinal ∧ raceFinal.done = some none ∧
    raceFinal.stored = [7] ∧ raceFinal.executed = [] :=
  ⟨race_steps, rfl, rfl, rfl⟩

/-- C1 witness: the amended statement evaluated on the racing execution:
nothing was executed more often than stored, and the stored-but-raced
item `7` is exactly the backlog left at exit. -/
theorem c1_stored_executed_exactly_once_witness :
    (∀ x, raceFinal.executed.count x ≤ raceFinal.stored.count x) ∧
    (∀ x, raceFinal.stored.count x =
      raceFinal.storage.first.count x + raceFinal.executed.count x) ∧
    raceFinal.storage.first = raceFinal.sinceQuery :=
  ⟨(c1_stored_executed_exactly_once Nat mNat uNat (fun r => ⟨rfl, rfl⟩)
      emptyStoreNat (by decide) 1 raceFinal race_steps).1,
    ((c1_stored_executed_exactly_once Nat mNat uNat (fun r => ⟨rfl, rfl⟩)
      emptyStoreNat (by decide) 1 raceFinal race_steps).2 rfl).1,
    ((c1_stored_executed_exactly_once Nat mNat uNat (fun r => ⟨rfl, rfl⟩)
      emptyStoreNat (by decide) 1 raceFinal race_steps).2 rfl).2⟩

/-- C2 counterexample: the same racing execution ends with `Run` returned
success while `Size()` — `QueueSize` of the backend — reports `1`,
refuting the claim that `Size()` is `0` immediately after a successful
`Run`. -/
theorem c2_counterexample_nonzero_size :
    Steps mNat uNat raceS0 raceFinal ∧ raceFinal.done = some none ∧
    (raceFinal.storage.QueueSize).1 = 1 :=
  ⟨race_steps, rfl, rfl⟩

/-- C2 witness: the amended exit condition evaluated on the racing
execution. -/
theorem c2_run_exit_condition_witness :
    raceFinal.active = 0 ∧
    raceFinal.storage.QueueSize = ((raceFinal.sinceQuery.length : Int), none) ∧
    (raceFinal.sinceQuery = [] → raceFinal.storage.QueueSize = (0, none)) :=
  c2_run_exit_condition Nat mNat uNat (fun r => ⟨rfl, rfl⟩) emptyStoreNat
    (by decide) 1 raceFinal race_steps rfl
